import Mathlib

/-!
# Verification of the food-label scanning pipeline

Shallow embedding of the image-capture-to-analysis pipeline of a
mobile web front end that photographs packaged-food labels and renders
an ingredient breakdown:

* the result normalizer inside `analyzeIngredients`
  (`src/services/geminiService.ts`, first variant, lines 150-164),
* the image normalizer `fileToGenerativePart`
  (first variant lines 6-65 with resize and JPEG re-encode, and the
  plain base64 second variant at lines 182-196),
* the capture/analysis view-state machine of `App.tsx`
  (`handleImagesSelect`, `handleRemoveImage`, `handleAnalyze`,
  `handleReset`), together with an event system whose guards mirror
  which buttons the render code makes available in each view state.

JavaScript-specific behaviour is modelled explicitly: truthiness of
values (`x || default`), member access on `null` throwing a
`TypeError`, `Array.isArray` coercion, and the `filter`-based removal
of staged images.
-/

/-- A parsed JSON value, the possible results of `JSON.parse`.
Numbers are modelled as integers: the normalizer never computes with
numbers, it only tests them for truthiness (`0` is falsy).
Object field lists model the already-parsed record, in which
`JSON.parse` has collapsed duplicate keys. -/
inductive Json where
  | null : Json
  | bool (b : Bool) : Json
  | num (n : Int) : Json
  | str (s : String) : Json
  | arr (elems : List Json) : Json
  | obj (fields : List (String × Json)) : Json

/-- JavaScript truthiness of a JSON value: `null`, `false`, `0` and
`""` are falsy; every object and array is truthy. -/
def jsTruthy : Json → Bool
  | .null => false
  | .bool b => b
  | .num n => n != 0
  | .str s => s != ""
  | .arr _ => true
  | .obj _ => true

/-- Field lookup in a parsed JSON object record. -/
def lookupField : List (String × Json) → String → Option Json
  | [], _ => none
  | (k, v) :: rest, f => if k = f then some v else lookupField rest f

/-- The `TypeError` raised by JavaScript member access on `null`. -/
inductive JsAccessError where
  | nullAccess (field : String) : JsAccessError
deriving DecidableEq, Repr

/-- JavaScript member access `v.f` on a parsed JSON value: it throws on
`null`, yields the field on objects, and yields `undefined` (modelled
as `none`) on any other value. -/
def jsGetMember : Json → String → Except JsAccessError (Option Json)
  | .null, f => .error (.nullAccess f)
  | .obj fields, f => .ok (lookupField fields f)
  | _, _ => .ok none

/-- JavaScript `x || d` where `x` may be `undefined` (`none`). -/
def jsOrDefault (x : Option Json) (d : Json) : Json :=
  match x with
  | some v => if jsTruthy v then v else d
  | none => d

/-- `Array.isArray(x) ? x : []` where `x` may be `undefined`. -/
def jsArrayOrEmpty (x : Option Json) : List Json :=
  match x with
  | some (.arr elems) => elems
  | _ => []

/-- The canonical analysis record built by the result normalizer
(`geminiService.ts` lines 155-162).  The three scalar-ish fields keep
whatever JSON value the code assigned them, since the code performs no
per-field type coercion; the three sequence fields are genuine lists
because `Array.isArray` guards them. -/
structure AnalysisResult where
  productName : Json
  summary : Json
  childSuitability : Json
  ingredients : List Json
  warnings : List Json
  pros : List Json

/-- The fallback `childSuitability` object
`{ status: MODERATE, reason: "資料不足，請自行判斷" }`. -/
def defaultChildSuitability : Json :=
  .obj [("status", .str "MODERATE"), ("reason", .str "資料不足，請自行判斷")]

/-- The defaulting normalization of the parsed backend response,
`geminiService.ts` lines 155-162.  Member accesses happen in the order
of the object literal, and the first one throws when the parsed value
is `null`. -/
def normalizeParsed (parsed : Json) : Except JsAccessError AnalysisResult := do
  let pn ← jsGetMember parsed "productName"
  let sm ← jsGetMember parsed "summary"
  let cs ← jsGetMember parsed "childSuitability"
  let ing ← jsGetMember parsed "ingredients"
  let wr ← jsGetMember parsed "warnings"
  let pr ← jsGetMember parsed "pros"
  pure { productName := jsOrDefault pn (.str "未知產品")
         summary := jsOrDefault sm (.str "無法提供總結")
         childSuitability := jsOrDefault cs defaultChildSuitability
         ingredients := jsArrayOrEmpty ing
         warnings := jsArrayOrEmpty wr
         pros := jsArrayOrEmpty pr }

/-- Outcome of `JSON.parse` on the response text, supplied as an oracle
because the parser itself is a host-library primitive external to the
repository. -/
inductive ParseOutcome where
  | malformed : ParseOutcome
  | value (j : Json) : ParseOutcome

/-- Errors of the response-normalization stage of `analyzeIngredients`
(`geminiService.ts` lines 150-164): absent or empty response text,
unparseable text, or a JavaScript `TypeError` escaping the defaulting
code itself. -/
inductive NormalizeError where
  | emptyResponse : NormalizeError
  | malformedResponse : NormalizeError
  | memberError (e : JsAccessError) : NormalizeError

/-- Lines 150-164 of `analyzeIngredients` (first variant):
`if (!text) throw`, then `JSON.parse(text)`, then the defaulting
object literal.  `text = none` models an absent `response.text`;
`""` is falsy, so it also hits the empty-response throw. -/
def normalizeResponse (text : Option String) (parse : ParseOutcome) :
    Except NormalizeError AnalysisResult :=
  match text with
  | none => .error .emptyResponse
  | some s =>
    if s = "" then .error .emptyResponse
    else
      match parse with
      | .malformed => .error .malformedResponse
      | .value j =>
        match normalizeParsed j with
        | .error e => .error (.memberError e)
        | .ok r => .ok r

/-- A normalized record is fully populated: the three object-literal
fields hold truthy values (the `||` defaults are themselves truthy) and
the three sequence fields are lists by construction. -/
def fullyPopulated (r : AnalysisResult) : Prop :=
  jsTruthy r.productName = true ∧ jsTruthy r.summary = true ∧
    jsTruthy r.childSuitability = true

/-- Status lookup inside a normalized record's `childSuitability`. -/
def statusField (r : AnalysisResult) : Option Json :=
  match r.childSuitability with
  | .obj fields => lookupField fields "status"
  | _ => none

/-- The normalization of the empty JSON object: every field defaulted. -/
def emptyObjectResult : AnalysisResult :=
  { productName := .str "未知產品", summary := .str "無法提供總結",
    childSuitability := defaultChildSuitability,
    ingredients := [], warnings := [], pros := [] }

example : normalizeParsed (.obj []) = .ok emptyObjectResult := rfl

example : normalizeResponse (some "null") (.value .null) =
    .error (.memberError (.nullAccess "productName")) := rfl

/-! ## Image normalizer (`fileToGenerativePart`) -/

/-- The dimension cap of the resizing normalizer
(`geminiService.ts` first variant, line 13). -/
def MAX_DIMENSION : ℚ := 1024

/-- Lines 14-27 of the first `fileToGenerativePart` variant: scale the
longer edge down to the cap, preserving the aspect ratio; leave the
dimensions alone when both edges are within the cap.  `img.width` and
`img.height` are the natural pixel dimensions of the decoded image; the
scaled values are the exact rationals the floating-point code
approximates. -/
def resizeDimensions (w h : Nat) : ℚ × ℚ :=
  if h < w then
    if 1024 < w then (MAX_DIMENSION, (h : ℚ) * (MAX_DIMENSION / (w : ℚ)))
    else ((w : ℚ), (h : ℚ))
  else
    if 1024 < h then ((w : ℚ) * (MAX_DIMENSION / (h : ℚ)), MAX_DIMENSION)
    else ((w : ℚ), (h : ℚ))

/-- Lines 29-31: assigning a number to `canvas.width` / `canvas.height`
converts it to an unsigned integer, truncating the fractional part. -/
def canvasDims (w h : Nat) : Nat × Nat :=
  ((Int.floor (resizeDimensions w h).1).toNat,
   (Int.floor (resizeDimensions w h).2).toNat)

/-- Observable metadata of the resizing normalizer's output part. -/
structure GenerativePartMeta where
  mimeType : String
  width : Nat
  height : Nat
deriving DecidableEq, Repr

/-- The resizing `fileToGenerativePart` (first variant, lines 6-65):
the input is drawn onto a canvas of the capped dimensions and the
canvas is re-encoded with `canvas.toDataURL('image/jpeg', 0.8)`, so the
resolved `mimeType` is the constant `'image/jpeg'` (line 51) whatever
the input file's own type was. -/
def fileToGenerativePart_resize (_fileType : String) (w h : Nat) :
    GenerativePartMeta :=
  { mimeType := "image/jpeg",
    width := (canvasDims w h).1, height := (canvasDims w h).2 }

/-- Observable metadata of the plain base64 variant's output part. -/
structure PlainPartMeta where
  mimeType : String
deriving DecidableEq, Repr

/-- The plain base64 `fileToGenerativePart` (second variant, lines
182-196): no canvas, no re-encode; the resolved `mimeType` is
`file.type`, the input file's own type (line 189). -/
def fileToGenerativePart_plain (fileType : String) : PlainPartMeta :=
  { mimeType := fileType }

/-! ## Capture/analysis view-state machine (`App.tsx`) -/

/-- The four view states of `types.ts`. -/
inductive ViewState where
  | HOME
  | PREVIEW
  | ANALYZING
  | RESULT
deriving DecidableEq, Repr

/-- A staged image (`App.tsx` lines 8-13). -/
structure ImageAsset where
  id : String
  url : String
  data : String
  mimeType : String
deriving DecidableEq, Repr

/-- The pipeline state held by the `App` component: the four `useState`
fields of `App.tsx` lines 16-19. -/
structure AppState where
  viewState : ViewState
  selectedImages : List ImageAsset
  result : Option AnalysisResult
  error : Option String

/-- The initial state (`App.tsx` lines 16-19). -/
def initState : AppState :=
  { viewState := .HOME, selectedImages := [], result := none, error := none }

/-- Outcome of normalizing one picked file inside the
`handleImagesSelect` loop: either a staged `ImageAsset` (with its fresh
id and object URL already attached) or a rejected promise. -/
inductive FileOutcome where
  | ok (img : ImageAsset) : FileOutcome
  | err : FileOutcome
deriving DecidableEq

/-- The `for (const file of files)` loop of `handleImagesSelect`
(lines 30-38): images are normalized one at a time, in order, and the
first failure aborts the whole loop with nothing published. -/
def collectBatch : List FileOutcome → Option (List ImageAsset)
  | [] => some []
  | .ok img :: rest => (collectBatch rest).map (img :: ·)
  | .err :: _ => none

/-- `handleImagesSelect` (lines 26-47): on success append the whole
batch, go to `PREVIEW` and clear the error; on any failure only set the
error message — the locally collected images are discarded and neither
`selectedImages` nor `viewState` is touched. -/
def handleImagesSelect (s : AppState) (files : List FileOutcome) : AppState :=
  match collectBatch files with
  | some newImages =>
    { s with selectedImages := s.selectedImages ++ newImages,
             viewState := .PREVIEW, error := none }
  | none => { s with error := some "讀取圖片失敗，請重試" }

/-- `handleRemoveImage` (lines 49-55): filter out the matching id; when
the filtered list is empty, additionally set the view state to `HOME`.
Nothing else is written. -/
def handleRemoveImage (s : AppState) (id : String) : AppState :=
  let newImages := s.selectedImages.filter (fun img => img.id != id)
  let s1 := { s with selectedImages := newImages }
  if newImages.length = 0 then { s1 with viewState := .HOME } else s1

/-- The synchronous opening of `handleAnalyze` (lines 57-61): bail out
on an empty staging list, otherwise enter `ANALYZING` and clear the
error before the backend round-trip. -/
def handleAnalyzeStart (s : AppState) : AppState :=
  if s.selectedImages.length = 0 then s
  else { s with viewState := .ANALYZING, error := none }

/-- Outcome of the awaited `analyzeIngredients` call: a normalized
result, or a thrown error carrying a message.  Every throw site inside
`analyzeIngredients` produces a non-empty message, but the model allows
any string and lets the caller's `err.message || fallback` handle it. -/
inductive BackendOutcome where
  | success (r : AnalysisResult) : BackendOutcome
  | failure (msg : String) : BackendOutcome

/-- The continuation of `handleAnalyze` after the `await` (lines
69-75), acting on whatever the state is when the response arrives:
success stores the result and shows `RESULT`; a thrown error sets
`err.message || "分析過程中發生錯誤"` and rolls the view back to
`PREVIEW`. -/
def handleAnalyzeCompletion (s : AppState) (o : BackendOutcome) : AppState :=
  match o with
  | .success r => { s with result := some r, viewState := .RESULT }
  | .failure msg =>
    { s with error := some (if msg = "" then "分析過程中發生錯誤" else msg),
             viewState := .PREVIEW }

/-- A whole uninterrupted `handleAnalyze` run (lines 57-76). -/
def handleAnalyze (s : AppState) (o : BackendOutcome) : AppState :=
  if s.selectedImages.length = 0 then s
  else handleAnalyzeCompletion (handleAnalyzeStart s) o

/-- `handleReset` (lines 78-83). -/
def handleReset (s : AppState) : AppState :=
  { s with viewState := .HOME, selectedImages := [], result := none,
           error := none }

/-- User-triggered events of the pipeline.  `analyzeStart` and
`analyzeComplete` are separate events because `handleAnalyze` suspends
at the backend `await`, so other handlers may run in between.  This
coarse system deliberately treats `handleImagesSelect` as one atomic
`addImages` transition, although the handler also suspends (at
`await fileToGenerativePart`, `App.tsx` line 31): it describes the
executions in which every batch normalization settles before the next
user action.  The `AsyncEvent` system below drops that restriction by
splitting a batch into a pick and a later settle and tracking the
pending work explicitly. -/
inductive Event where
  | addImages (files : List FileOutcome) : Event
  | removeImage (id : String) : Event
  | analyzeStart : Event
  | analyzeComplete (o : BackendOutcome) : Event
  | reset : Event

/-- Availability guard of each event, read off the render code of
`App.tsx`: the capture input is mounted on the `HOME` screen and in the
non-empty `PREVIEW` gallery (and never fires with an empty file list,
`CameraInput.tsx` line 15); the per-image remove buttons and the
analyze button exist only on the non-empty `PREVIEW` screen; the reset
buttons only outside `HOME`.  A pending backend completion may arrive
in any state — this over-approximates the real in-flight condition,
which is sound for invariants. -/
def canFire (s : AppState) : Event → Prop
  | .addImages files =>
    files ≠ [] ∧
      (s.viewState = .HOME ∨
        (s.viewState = .PREVIEW ∧ s.selectedImages ≠ []))
  | .removeImage _ => s.viewState = .PREVIEW ∧ s.selectedImages ≠ []
  | .analyzeStart => s.viewState = .PREVIEW ∧ s.selectedImages ≠ []
  | .analyzeComplete _ => True
  | .reset => s.viewState ≠ .HOME

/-- Dispatch an event to its `App.tsx` handler. -/
def step (s : AppState) : Event → AppState
  | .addImages files => handleImagesSelect s files
  | .removeImage id => handleRemoveImage s id
  | .analyzeStart => handleAnalyzeStart s
  | .analyzeComplete o => handleAnalyzeCompletion s o
  | .reset => handleReset s

/-- States the pipeline can reach from the initial state through
available events. -/
inductive Reachable : AppState → Prop where
  | init : Reachable initState
  | next {s : AppState} {e : Event} :
      Reachable s → canFire s e → Reachable (step s e)

/-! ## Refined event system with suspended handlers

Both asynchronous handlers suspend: `handleAnalyze` at the backend
`await` and `handleImagesSelect` at `await fileToGenerativePart`
(`App.tsx` line 31) — the two suspension points of the pipeline.  The
configurations below track the suspended work explicitly, so a batch
picked in `HOME` or `PREVIEW` may settle (publish or hit its `catch`)
at any later time, in whatever state the app has moved to meanwhile. -/

/-- A pipeline configuration: the rendered `AppState` plus the work
suspended at the two `await` points — the picked file batches whose
normalization loop has not finished, and the number of
`analyzeIngredients` calls in flight. -/
structure AsyncConfig where
  app : AppState
  pendingBatches : List (List FileOutcome)
  pendingAnalyzes : Nat

/-- The initial configuration: initial state, nothing in flight. -/
def initConfig : AsyncConfig :=
  { app := initState, pendingBatches := [], pendingAnalyzes := 0 }

/-- Events of the refined system.  `pickImages` is the `onChange` that
starts `handleImagesSelect` (which writes nothing before its first
`await`); `imagesSettled` is its continuation — success publish or the
`catch` — landing later.  `analyzeStart` is the synchronous prefix of
`handleAnalyze` up to the backend `await`; `analyzeReturned` its
continuation. -/
inductive AsyncEvent where
  | pickImages (files : List FileOutcome) : AsyncEvent
  | imagesSettled (files : List FileOutcome) : AsyncEvent
  | removeImage (id : String) : AsyncEvent
  | analyzeStart : AsyncEvent
  | analyzeReturned (o : BackendOutcome) : AsyncEvent
  | reset : AsyncEvent

/-- Availability guard of each refined event: the user-triggered ones
keep the `canFire` affordance guards; a batch can settle only if it was
picked earlier and is still pending; the backend can return only if a
request is in flight. -/
def canFireAsync (c : AsyncConfig) : AsyncEvent → Prop
  | .pickImages files =>
    files ≠ [] ∧
      (c.app.viewState = .HOME ∨
        (c.app.viewState = .PREVIEW ∧ c.app.selectedImages ≠ []))
  | .imagesSettled files => files ∈ c.pendingBatches
  | .removeImage _ => c.app.viewState = .PREVIEW ∧ c.app.selectedImages ≠ []
  | .analyzeStart => c.app.viewState = .PREVIEW ∧ c.app.selectedImages ≠ []
  | .analyzeReturned _ => 0 < c.pendingAnalyzes
  | .reset => c.app.viewState ≠ .HOME

/-- Dispatch a refined event: picking a batch only records it; its
settling applies `handleImagesSelect` to whatever the app state is by
then and discharges the pending record; the remaining events wrap the
synchronous handlers as before. -/
def stepAsync (c : AsyncConfig) : AsyncEvent → AsyncConfig
  | .pickImages files => { c with pendingBatches := files :: c.pendingBatches }
  | .imagesSettled files =>
    { c with app := handleImagesSelect c.app files
             pendingBatches := c.pendingBatches.erase files }
  | .removeImage id => { c with app := handleRemoveImage c.app id }
  | .analyzeStart =>
    { c with app := handleAnalyzeStart c.app
             pendingAnalyzes := c.pendingAnalyzes + 1 }
  | .analyzeReturned o =>
    { c with app := handleAnalyzeCompletion c.app o
             pendingAnalyzes := c.pendingAnalyzes - 1 }
  | .reset => { c with app := handleReset c.app }

/-- Configurations the refined pipeline can reach from the initial
configuration through available events. -/
inductive ReachableAsync : AsyncConfig → Prop where
  | init : ReachableAsync initConfig
  | next {c : AsyncConfig} {e : AsyncEvent} :
      ReachableAsync c → canFireAsync c e → ReachableAsync (stepAsync c e)

/-! ## Sample data used by concrete counterexamples and witnesses -/

/-- A staged sample image. -/
def imgA : ImageAsset :=
  { id := "img1", url := "blob:preview1", data := "QUJD", mimeType := "image/jpeg" }

/-- A sample normalized backend result. -/
def sampleResult : AnalysisResult :=
  { productName := .str "Test Snack", summary := .str "ok",
    childSuitability := .obj [("status", .str "SAFE"), ("reason", .str "fine")],
    ingredients := [], warnings := [], pros := [.str "No preservatives"] }

/-- The backend response whose `childSuitability.status` holds a value
outside the three-member enum. -/
def unrecognizedStatusResponse : Json :=
  .obj [("childSuitability",
         .obj [("status", .str "BANANA"), ("reason", .str "看情況")])]

/-- A `PREVIEW` state holding one staged image and nothing else. -/
def previewOne : AppState :=
  { viewState := .PREVIEW, selectedImages := [imgA], result := none, error := none }

/-- A `PREVIEW` state holding one staged image and a stale error. -/
def previewOneStale : AppState :=
  { viewState := .PREVIEW, selectedImages := [imgA], result := none, error := some "stale" }

/-- A fully occupied `RESULT` state. -/
def resultFull : AppState :=
  { viewState := .RESULT, selectedImages := [imgA], result := some sampleResult, error := some "x" }

/-- A `PREVIEW` state with an empty staging list. -/
def emptyPreviewState : AppState :=
  { viewState := .PREVIEW, selectedImages := [], result := none, error := none }

/-- The state after: stage one image, begin analysis, backend fails.
A `PREVIEW` state carrying a staged image and an error message. -/
def c3TraceState : AppState :=
  step (step (step initState (.addImages [.ok imgA])) .analyzeStart)
    (.analyzeComplete (.failure "網路錯誤"))

/-- The reachable state after: stage one image, begin analysis, reset
while the request is in flight.  Identical to the initial `HOME`
state. -/
def c5AfterReset : AppState :=
  step (step (step initState (.addImages [.ok imgA])) .analyzeStart) .reset

/-- The refined-system configuration after: pick and settle one good
image, pick a batch with a corrupt file, tap analyze while that batch
is still decoding, and let the decode reject.  The batch's `catch` runs
`setError` while the phase is `ANALYZING`. -/
def c10RaceConfig : AsyncConfig :=
  stepAsync
    (stepAsync
      (stepAsync
        (stepAsync
          (stepAsync initConfig (.pickImages [.ok imgA]))
          (.imagesSettled [.ok imgA]))
        (.pickImages [.err]))
      .analyzeStart)
    (.imagesSettled [.err])

/-- The refined-system configuration of a race-free analysis start:
pick and settle one good image, then tap analyze. -/
def c10CleanConfig : AsyncConfig :=
  stepAsync
    (stepAsync
      (stepAsync initConfig (.pickImages [.ok imgA]))
      (.imagesSettled [.ok imgA]))
    .analyzeStart

/-! ## Theorems -/

lemma jsTruthy_jsOrDefault (x : Option Json) (d : Json)
    (hd : jsTruthy d = true) : jsTruthy (jsOrDefault x d) = true := by
  cases x with
  | none => simp [jsOrDefault, hd]
  | some v =>
    by_cases hv : jsTruthy v = true
    · simp [jsOrDefault, hv]
    · simp only [jsOrDefault, Bool.not_eq_true] at hv ⊢
      simp [hv, hd]

lemma normalizeParsed_ok_of_ne_null (j : Json) (h : j ≠ .null) :
    ∃ r, normalizeParsed j = .ok r ∧ fullyPopulated r := by
  cases j with
  | null => exact absurd rfl h
  | bool b => exact ⟨_, rfl, rfl, rfl, rfl⟩
  | num n => exact ⟨_, rfl, rfl, rfl, rfl⟩
  | str s => exact ⟨_, rfl, rfl, rfl, rfl⟩
  | arr elems => exact ⟨_, rfl, rfl, rfl, rfl⟩
  | obj fields =>
    refine ⟨_, rfl, ?_, ?_, ?_⟩ <;>
      exact jsTruthy_jsOrDefault _ _ (by decide)

/-- C1 counterexample: the response text `"null"` parses as JSON, the
text is non-empty, yet normalization does not return a result — the
member access `parsed.productName` throws on `null`, an error that is
neither the empty-response nor the malformed-response hard error. -/
theorem normalizeResponse_null_json_raises :
    ("null" : String) ≠ "" ∧
    normalizeResponse (some "null") (.value .null) =
      .error (.memberError (.nullAccess "productName")) ∧
    (normalizeResponse (some "null") (.value .null)).toOption = none ∧
    normalizeResponse (some "null") (.value .null) ≠
      .error .emptyResponse ∧
    normalizeResponse (some "null") (.value .null) ≠
      .error .malformedResponse :=
  ⟨by decide, rfl, rfl,
   fun h => NormalizeError.noConfusion (Except.error.inj h),
   fun h => NormalizeError.noConfusion (Except.error.inj h)⟩

/-- C1 (amended): the result normalizer is total over response texts
that parse as JSON to anything other than `null` (including the empty
object), producing a fully-populated record; absent or empty response
text and unparseable text are the hard errors; but the JSON text
`null` makes the defaulting code itself throw. -/
theorem normalizeResponse_total_on_nonnull_json :
    (∀ p, normalizeResponse none p = .error .emptyResponse) ∧
    (∀ p, normalizeResponse (some "") p = .error .emptyResponse) ∧
    (∀ s, s ≠ "" →
      normalizeResponse (some s) .malformed = .error .malformedResponse) ∧
    (∀ s j, s ≠ "" → j ≠ .null →
      ∃ r, normalizeResponse (some s) (.value j) = .ok r ∧ fullyPopulated r) := by
  refine ⟨fun p => rfl, fun p => rfl, fun s hs => ?_, fun s j hs hj => ?_⟩
  · simp [normalizeResponse, hs]
  · obtain ⟨r, hr, hfull⟩ := normalizeParsed_ok_of_ne_null j hj
    exact ⟨r, by simp [normalizeResponse, hs, hr], hfull⟩

/-- C1 witness: the empty JSON object `\x7b\x7d` is accepted and fully
populated. -/
theorem normalizeResponse_total_on_nonnull_json_witness :
    ("\x7b\x7d" : String) ≠ "" ∧ Json.obj [] ≠ Json.null ∧
    (∃ r, normalizeResponse (some "\x7b\x7d") (.value (.obj [])) = .ok r ∧
      fullyPopulated r) :=
  ⟨by decide, fun h => Json.noConfusion h,
    normalizeResponse_total_on_nonnull_json.2.2.2 "\x7b\x7d" (.obj [])
      (by decide) (fun h => Json.noConfusion h)⟩

/-- C2 counterexample: a backend response whose `childSuitability`
object is present but carries the unrecognized status `"BANANA"` is
accepted by the normalizer, and the normalized status is `"BANANA"`,
not `MODERATE` and not any of the three enum values. -/
theorem childSuitability_unrecognized_status_passes_through :
    (normalizeParsed unrecognizedStatusResponse).map statusField =
      .ok (some (.str "BANANA")) ∧
    ("BANANA" : String) ≠ "SAFE" ∧ ("BANANA" : String) ≠ "MODERATE" ∧
    ("BANANA" : String) ≠ "AVOID" :=
  ⟨rfl, by decide, by decide, by decide⟩

/-- C2 (amended): the defaulting is object-level only — when the
parsed `childSuitability` field is absent or falsy the whole default
object (status `MODERATE`) is substituted, and when it is present and
truthy it is passed through unchanged, whatever its `status` holds. -/
theorem childSuitability_object_level_default :
    ∀ j r, normalizeParsed j = .ok r →
      ((jsGetMember j "childSuitability" = .ok none ∨
        (∃ v, jsGetMember j "childSuitability" = .ok (some v) ∧
          jsTruthy v = false)) →
        r.childSuitability = defaultChildSuitability ∧
        statusField r = some (.str "MODERATE")) ∧
      (∀ v, jsGetMember j "childSuitability" = .ok (some v) →
        jsTruthy v = true → r.childSuitability = v) := by
  intro j r hr
  cases j with
  | null => exact Except.noConfusion hr
  | bool b =>
    refine ⟨fun _ => ?_, fun v hv => ?_⟩
    · cases hr; exact ⟨rfl, rfl⟩
    · exact absurd hv (by simp [jsGetMember])
  | num n =>
    refine ⟨fun _ => ?_, fun v hv => ?_⟩
    · cases hr; exact ⟨rfl, rfl⟩
    · exact absurd hv (by simp [jsGetMember])
  | str s =>
    refine ⟨fun _ => ?_, fun v hv => ?_⟩
    · cases hr; exact ⟨rfl, rfl⟩
    · exact absurd hv (by simp [jsGetMember])
  | arr elems =>
    refine ⟨fun _ => ?_, fun v hv => ?_⟩
    · cases hr; exact ⟨rfl, rfl⟩
    · exact absurd hv (by simp [jsGetMember])
  | obj fields =>
    have hrec : { productName := jsOrDefault (lookupField fields "productName") (.str "未知產品")
                  summary := jsOrDefault (lookupField fields "summary") (.str "無法提供總結")
                  childSuitability := jsOrDefault (lookupField fields "childSuitability") defaultChildSuitability
                  ingredients := jsArrayOrEmpty (lookupField fields "ingredients")
                  warnings := jsArrayOrEmpty (lookupField fields "warnings")
                  pros := jsArrayOrEmpty (lookupField fields "pros") : AnalysisResult } = r :=
      Except.ok.inj hr
    subst hrec
    constructor
    · rintro (hnone | ⟨v, hv, hfalsy⟩)
      · simp only [jsGetMember, Except.ok.injEq] at hnone
        simp [hnone, jsOrDefault, defaultChildSuitability, statusField, lookupField]
      · simp only [jsGetMember, Except.ok.injEq] at hv
        simp [hv, jsOrDefault, hfalsy, defaultChildSuitability, statusField, lookupField]
    · intro v hv htruthy
      simp only [jsGetMember, Except.ok.injEq] at hv
      simp [hv, jsOrDefault, htruthy]

/-- C2 witness: for the empty object the normalized `childSuitability`
is the default object and its status is `MODERATE`. -/
theorem childSuitability_object_level_default_witness :
    normalizeParsed (.obj []) = .ok emptyObjectResult ∧
    emptyObjectResult.childSuitability = defaultChildSuitability ∧
    statusField emptyObjectResult = some (.str "MODERATE") :=
  ⟨rfl,
   ((childSuitability_object_level_default (.obj []) emptyObjectResult rfl).1
      (Or.inl rfl)).1,
   ((childSuitability_object_level_default (.obj []) emptyObjectResult rfl).1
      (Or.inl rfl)).2⟩

/-- C3 counterexample: from the reachable `PREVIEW` state with one
staged image and a stale analysis error, removing the last image
transitions into `HOME` — and the error (and result) fields are not
cleared on the way, contradicting the claimed into-HOME invariant. -/
theorem removeImage_to_home_keeps_stale_error :
    Reachable c3TraceState ∧
    c3TraceState = { viewState := .PREVIEW
                     selectedImages := [imgA]
                     result := none
                     error := some "網路錯誤" } ∧
    (step c3TraceState (.removeImage "img1")).viewState = .HOME ∧
    (step c3TraceState (.removeImage "img1")).selectedImages = [] ∧
    (step c3TraceState (.removeImage "img1")).error = some "網路錯誤" ∧
    (step c3TraceState (.removeImage "img1")).error ≠ none := by
  refine ⟨?_, rfl, rfl, rfl, rfl, fun h => Option.noConfusion h⟩
  exact Reachable.next
    (Reachable.next
      (Reachable.next Reachable.init ⟨by decide, Or.inl rfl⟩)
      ⟨rfl, by decide⟩)
    trivial

/-- C3 (amended): `reset()` into `HOME` clears everything —
`handleReset` yields exactly the initial state; `removeImage` on the
last staged image transitions into `HOME` with `stagedImages` emptied
but leaves `result` and `lastError` exactly as they were. -/
theorem into_home_reset_clears_but_removeImage_does_not :
    (∀ s, handleReset s = initState) ∧
    (∀ s id, s.selectedImages.filter (fun img => img.id != id) = [] →
      (handleRemoveImage s id).viewState = .HOME ∧
      (handleRemoveImage s id).selectedImages = [] ∧
      (handleRemoveImage s id).result = s.result ∧
      (handleRemoveImage s id).error = s.error) := by
  refine ⟨fun s => rfl, fun s id hfil => ?_⟩
  simp [handleRemoveImage, hfil]

/-- C3 witness: resetting a full `RESULT` state restores the initial
state, and removing the only staged image of a `PREVIEW` state leaves
`result`/`error` untouched on the way into `HOME`. -/
theorem into_home_reset_clears_but_removeImage_does_not_witness :
    handleReset resultFull = initState ∧
    previewOneStale.selectedImages.filter (fun img => img.id != "img1") = [] ∧
    ((handleRemoveImage previewOneStale "img1").viewState = .HOME ∧
     (handleRemoveImage previewOneStale "img1").selectedImages = [] ∧
     (handleRemoveImage previewOneStale "img1").result = previewOneStale.result ∧
     (handleRemoveImage previewOneStale "img1").error = previewOneStale.error) :=
  ⟨into_home_reset_clears_but_removeImage_does_not.1 resultFull, by decide,
   into_home_reset_clears_but_removeImage_does_not.2 previewOneStale "img1"
     (by decide)⟩

/-- C4: an uninterrupted `analyze()` run over a non-empty staging list
whose backend call throws (unavailable backend, empty response,
malformed response — every throw funnels through the same `catch`)
ends in `PREVIEW`, not stuck in `ANALYZING`, with a non-empty
user-facing error message, the result still unset and the staged
images untouched. -/
theorem analyze_failure_rolls_back_to_preview :
    ∀ s msg, s.selectedImages ≠ [] → s.result = none →
      (handleAnalyze s (.failure msg)).viewState = .PREVIEW ∧
      (handleAnalyze s (.failure msg)).viewState ≠ .ANALYZING ∧
      (∃ m, (handleAnalyze s (.failure msg)).error = some m ∧ m ≠ "") ∧
      (handleAnalyze s (.failure msg)).result = none ∧
      (handleAnalyze s (.failure msg)).selectedImages = s.selectedImages := by
  intro s msg hne hres
  have hlen : ¬s.selectedImages.length = 0 := by
    simpa [List.length_eq_zero] using hne
  have hstep : handleAnalyze s (.failure msg) =
      { viewState := .PREVIEW
        selectedImages := s.selectedImages
        result := s.result
        error := some (if msg = "" then "分析過程中發生錯誤" else msg) } := by
    simp [handleAnalyze, handleAnalyzeStart, handleAnalyzeCompletion, hlen]
  rw [hstep]
  refine ⟨rfl, fun h => ViewState.noConfusion h,
    ⟨if msg = "" then "分析過程中發生錯誤" else msg, rfl, ?_⟩, hres, rfl⟩
  by_cases h : msg = "" <;> simp [h]

/-- C4 witness: a failed analysis from `PREVIEW` with one staged image
and an empty thrown message. -/
theorem analyze_failure_rolls_back_to_preview_witness :
    previewOne.selectedImages ≠ [] ∧ previewOne.result = none ∧
    ((handleAnalyze previewOne (.failure "")).viewState = .PREVIEW ∧
     (handleAnalyze previewOne (.failure "")).viewState ≠ .ANALYZING ∧
     (∃ m, (handleAnalyze previewOne (.failure "")).error = some m ∧ m ≠ "") ∧
     (handleAnalyze previewOne (.failure "")).result = none ∧
     (handleAnalyze previewOne (.failure "")).selectedImages =
       previewOne.selectedImages) :=
  ⟨by decide, rfl,
   analyze_failure_rolls_back_to_preview previewOne "" (by decide) rfl⟩

/-- C5 (code bug): the in-flight response arriving after a mid-analysis
reset is not ignored — there is no stale-response guard, so the
completion handler stores the result and moves the view from `HOME` to
`RESULT`. -/
theorem stale_response_after_reset_is_acted_upon :
    Reachable c5AfterReset ∧
    c5AfterReset = initState ∧
    step c5AfterReset (.analyzeComplete (.success sampleResult)) =
      { viewState := .RESULT
        selectedImages := []
        result := some sampleResult
        error := none } ∧
    (step c5AfterReset (.analyzeComplete (.success sampleResult))).viewState ≠
      .HOME ∧
    (step c5AfterReset (.analyzeComplete (.success sampleResult))).result ≠
      none := by
  refine ⟨?_, rfl, rfl, fun h => ViewState.noConfusion h,
    fun h => Option.noConfusion h⟩
  exact Reachable.next
    (Reachable.next
      (Reachable.next Reachable.init ⟨by decide, Or.inl rfl⟩)
      ⟨rfl, by decide⟩)
    (fun h => ViewState.noConfusion h)

lemma collectBatch_eq_none_of_mem_err :
    ∀ files : List FileOutcome, FileOutcome.err ∈ files →
      collectBatch files = none := by
  intro files h
  induction files with
  | nil => cases h
  | cons f rest ih =>
    cases f with
    | err => rfl
    | ok img =>
      rcases List.mem_cons.mp h with h1 | h2
      · exact FileOutcome.noConfusion h1
      · simp [collectBatch, ih h2]

/-- C6: a batch containing a failing file leaves `stagedImages`,
`viewState` and `result` unchanged and only surfaces the error
message — nothing of the batch is partially applied. -/
theorem addImages_all_or_nothing :
    ∀ s files, FileOutcome.err ∈ files →
      (handleImagesSelect s files).selectedImages = s.selectedImages ∧
      (handleImagesSelect s files).viewState = s.viewState ∧
      (handleImagesSelect s files).result = s.result ∧
      (handleImagesSelect s files).error = some "讀取圖片失敗，請重試" := by
  intro s files h
  simp [handleImagesSelect, collectBatch_eq_none_of_mem_err files h]

/-- C6 witness: a two-file batch whose second file fails, applied to a
`PREVIEW` state that already holds one image. -/
theorem addImages_all_or_nothing_witness :
    FileOutcome.err ∈ [FileOutcome.ok imgA, FileOutcome.err] ∧
    ((handleImagesSelect previewOne [FileOutcome.ok imgA, FileOutcome.err]).selectedImages =
       previewOne.selectedImages ∧
     (handleImagesSelect previewOne [FileOutcome.ok imgA, FileOutcome.err]).viewState =
       previewOne.viewState ∧
     (handleImagesSelect previewOne [FileOutcome.ok imgA, FileOutcome.err]).result =
       previewOne.result ∧
     (handleImagesSelect previewOne [FileOutcome.ok imgA, FileOutcome.err]).error =
       some "讀取圖片失敗，請重試") :=
  ⟨by decide,
   addImages_all_or_nothing previewOne [FileOutcome.ok imgA, FileOutcome.err]
     (by decide)⟩

/-- C9 counterexample: with an empty staging list no id matches any
staged image, yet `removeImage` is not a no-op — the empty filtered
list makes it set the view state to `HOME`, changing the phase. -/
theorem removeImage_on_empty_staging_changes_phase :
    emptyPreviewState.selectedImages = [] ∧
    emptyPreviewState.viewState = .PREVIEW ∧
    (handleRemoveImage emptyPreviewState "anyid").viewState = .HOME ∧
    (handleRemoveImage emptyPreviewState "anyid").viewState ≠
      emptyPreviewState.viewState :=
  ⟨rfl, rfl, rfl, fun h => ViewState.noConfusion h⟩

/-- C9 (amended): provided at least one image is staged, `removeImage`
with an id matching no staged image leaves the state completely
unchanged; with an empty staging list it still rewrites the phase to
`HOME` (and changes nothing else). -/
theorem removeImage_nonmatching_id_frame :
    (∀ s id, s.selectedImages ≠ [] →
      (∀ img ∈ s.selectedImages, img.id ≠ id) →
      handleRemoveImage s id = s) ∧
    (∀ s id, s.selectedImages = [] →
      handleRemoveImage s id = { s with viewState := .HOME }) := by
  constructor
  · intro s id hne hall
    have hfil : s.selectedImages.filter (fun img => img.id != id) =
        s.selectedImages := by
      apply List.filter_eq_self.mpr
      intro img hm
      simpa [bne_iff_ne] using hall img hm
    have hlen : ¬s.selectedImages.length = 0 := by
      simpa [List.length_eq_zero] using hne
    simp only [handleRemoveImage, hfil, if_neg hlen]
  · intro s id hempty
    simp [handleRemoveImage, hempty]

/-- C9 witness: a one-image `PREVIEW` state and an id that matches
nothing. -/
theorem removeImage_nonmatching_id_frame_witness :
    previewOne.selectedImages ≠ [] ∧
    handleRemoveImage previewOne "other" = previewOne :=
  ⟨by decide,
   removeImage_nonmatching_id_frame.1 previewOne "other" (by decide) (by decide)⟩

/-- C10 counterexample: pick and settle one good image, pick a corrupt
file, tap analyze while its decode is pending, and let the decode
reject — the batch's `catch` lands `setError` while the phase is
`ANALYZING`, so a reachable `ANALYZING` configuration carries an
error. -/
theorem batch_failure_lands_during_analyzing :
    ReachableAsync c10RaceConfig ∧
    c10RaceConfig.app.viewState = .ANALYZING ∧
    c10RaceConfig.app.error = some "讀取圖片失敗，請重試" ∧
    c10RaceConfig.app.error ≠ none := by
  refine ⟨?_, rfl, rfl, fun h => Option.noConfusion h⟩
  exact ReachableAsync.next
    (ReachableAsync.next
      (ReachableAsync.next
        (ReachableAsync.next
          (ReachableAsync.next ReachableAsync.init ⟨by decide, Or.inl rfl⟩)
          (show [FileOutcome.ok imgA] ∈ [[FileOutcome.ok imgA]] by decide))
        ⟨by decide, Or.inr ⟨rfl, by decide⟩⟩)
      ⟨rfl, by decide⟩)
    (show [FileOutcome.err] ∈ [[FileOutcome.err]] by decide)

/-- C10 (amended): `analyze()` with a non-empty staging list clears
the previous error exactly when it enters `ANALYZING`, and in every
reachable configuration of the refined system an `ANALYZING` phase
carries either no error or exactly the batch-read failure message of a
concurrently settling image batch — never a stale error from an
earlier failed analysis. -/
theorem analyzing_error_only_batch_read_failure :
    (∀ s, s.selectedImages ≠ [] →
      (handleAnalyzeStart s).viewState = .ANALYZING ∧
      (handleAnalyzeStart s).error = none) ∧
    (∀ c, ReachableAsync c → c.app.viewState = .ANALYZING →
      c.app.error = none ∨ c.app.error = some "讀取圖片失敗，請重試") := by
  constructor
  · intro s hne
    rw [handleAnalyzeStart, if_neg (by simpa [List.length_eq_zero] using hne)]
    exact ⟨rfl, rfl⟩
  · intro c hr
    induction hr with
    | init => intro h; exact ViewState.noConfusion h
    | next hr hcan ih =>
      rename_i c e
      cases e with
      | pickImages files =>
        intro hview
        exact ih hview
      | imagesSettled files =>
        intro hview
        rcases hcb : collectBatch files with - | imgs
        · right
          simp [stepAsync, handleImagesSelect, hcb]
        · simp [stepAsync, handleImagesSelect, hcb] at hview
      | removeImage id =>
        rcases hcan with ⟨hprev, -⟩
        intro hview
        by_cases hlen :
            (c.app.selectedImages.filter (fun img => img.id != id)).length = 0
        · simp [stepAsync, handleRemoveImage, hlen] at hview
        · have hv : c.app.viewState = .ANALYZING := by
            simpa [stepAsync, handleRemoveImage, hlen] using hview
          rw [hprev] at hv
          exact ViewState.noConfusion hv
      | analyzeStart =>
        rcases hcan with ⟨-, hne⟩
        intro _
        left
        have hlen : ¬c.app.selectedImages.length = 0 := by
          simpa [List.length_eq_zero] using hne
        simp [stepAsync, handleAnalyzeStart, hlen]
      | analyzeReturned o =>
        intro hview
        cases o with
        | success r => simp [stepAsync, handleAnalyzeCompletion] at hview
        | failure msg => simp [stepAsync, handleAnalyzeCompletion] at hview
      | reset =>
        intro hview
        simp [stepAsync, handleReset] at hview

/-- C10 witness: `handleAnalyzeStart` on a `PREVIEW` state carrying a
stale error clears it, and the reachable race-free `ANALYZING`
configuration satisfies the invariant's disjunction. -/
theorem analyzing_error_only_batch_read_failure_witness :
    previewOneStale.selectedImages ≠ [] ∧
    ((handleAnalyzeStart previewOneStale).viewState = .ANALYZING ∧
     (handleAnalyzeStart previewOneStale).error = none) ∧
    ReachableAsync c10CleanConfig ∧
    c10CleanConfig.app.viewState = .ANALYZING ∧
    (c10CleanConfig.app.error = none ∨
      c10CleanConfig.app.error = some "讀取圖片失敗，請重試") := by
  have hreach : ReachableAsync c10CleanConfig :=
    ReachableAsync.next
      (ReachableAsync.next
        (ReachableAsync.next ReachableAsync.init ⟨by decide, Or.inl rfl⟩)
        (show [FileOutcome.ok imgA] ∈ [[FileOutcome.ok imgA]] by decide))
      ⟨rfl, by decide⟩
  exact ⟨by decide,
    analyzing_error_only_batch_read_failure.1 previewOneStale (by decide),
    hreach, rfl,
    analyzing_error_only_batch_read_failure.2 _ hreach rfl⟩

lemma floor_toNat_bounds (q : ℚ) (hq : 0 ≤ q) :
    ((Int.floor q).toNat : ℚ) ≤ q ∧ q < ((Int.floor q).toNat : ℚ) + 1 := by
  have h0 : ((Int.floor q).toNat : ℤ) = Int.floor q :=
    Int.toNat_of_nonneg (Int.floor_nonneg.mpr hq)
  have h2 : ((Int.floor q).toNat : ℚ) = ((Int.floor q : ℤ) : ℚ) := by
    exact_mod_cast congrArg (fun z : ℤ => (z : ℚ)) h0
  rw [h2]
  exact ⟨Int.floor_le q, Int.lt_floor_add_one q⟩

lemma floor_MAX : Int.floor MAX_DIMENSION = 1024 := by
  have hc : ((1024 : ℤ) : ℚ) = MAX_DIMENSION := by norm_num [MAX_DIMENSION]
  rw [← hc, Int.floor_intCast]

/-- C7: when both input edges are within the 1024 cap the canvas keeps
the input dimensions (no upscaling); when the longer edge exceeds the
cap, the longer canvas edge is exactly 1024, the pre-truncation
rational dimensions preserve the aspect ratio exactly (cross
multiplication), and each truncated canvas dimension is within one
unit below its rational value. -/
theorem normalizer_dimension_bounds :
    ∀ w h : Nat,
      (max w h ≤ 1024 → canvasDims w h = (w, h)) ∧
      (1024 < max w h →
        max (canvasDims w h).1 (canvasDims w h).2 = 1024 ∧
        (resizeDimensions w h).1 * (h : ℚ) = (resizeDimensions w h).2 * (w : ℚ) ∧
        ((canvasDims w h).1 : ℚ) ≤ (resizeDimensions w h).1 ∧
        (resizeDimensions w h).1 < ((canvasDims w h).1 : ℚ) + 1 ∧
        ((canvasDims w h).2 : ℚ) ≤ (resizeDimensions w h).2 ∧
        (resizeDimensions w h).2 < ((canvasDims w h).2 : ℚ) + 1) := by
  intro w h
  constructor
  · intro hle
    have hw : ¬1024 < w := by omega
    have hh : ¬1024 < h := by omega
    by_cases hwh : h < w
    · simp [canvasDims, resizeDimensions, hwh, hw, Int.floor_natCast]
    · simp [canvasDims, resizeDimensions, hwh, hh, Int.floor_natCast]
  · intro hgt
    by_cases hwh : h < w
    · -- landscape: width is capped
      have hw : 1024 < w := by omega
      have hdims : resizeDimensions w h =
          (MAX_DIMENSION, (h : ℚ) * (MAX_DIMENSION / (w : ℚ))) := by
        simp [resizeDimensions, hwh, hw]
      have hwpos : (0 : ℚ) < (w : ℚ) := by
        have h1 : 0 < w := by omega
        exact_mod_cast h1
      have hhw : (h : ℚ) < (w : ℚ) := by exact_mod_cast hwh
      have hq0 : 0 ≤ (h : ℚ) * (MAX_DIMENSION / (w : ℚ)) := by
        rw [MAX_DIMENSION]; positivity
      have hqlt : (h : ℚ) * (MAX_DIMENSION / (w : ℚ)) < 1024 := by
        rw [MAX_DIMENSION, ← mul_div_assoc, div_lt_iff₀ hwpos]
        nlinarith
      have hcanvas : canvasDims w h =
          (1024, (Int.floor ((h : ℚ) * (MAX_DIMENSION / (w : ℚ)))).toNat) := by
        rw [canvasDims, hdims]
        simp [floor_MAX]
      have hfb := floor_toNat_bounds _ hq0
      have hfloorlt : Int.floor ((h : ℚ) * (MAX_DIMENSION / (w : ℚ))) < 1024 := by
        rw [Int.floor_lt]
        exact_mod_cast hqlt
      have h0 : 0 ≤ Int.floor ((h : ℚ) * (MAX_DIMENSION / (w : ℚ))) :=
        Int.floor_nonneg.mpr hq0
      have htn : (Int.floor ((h : ℚ) * (MAX_DIMENSION / (w : ℚ)))).toNat ≤ 1024 := by
        omega
      have hwne : (w : ℚ) ≠ 0 := ne_of_gt hwpos
      refine ⟨?_, ?_, ?_, ?_, ?_, ?_⟩
      · rw [hcanvas]
        exact Nat.max_eq_left htn
      · rw [hdims]
        show MAX_DIMENSION * (h : ℚ) = (h : ℚ) * (MAX_DIMENSION / (w : ℚ)) * (w : ℚ)
        field_simp
        ring
      · rw [hcanvas, hdims]
        show ((1024 : ℕ) : ℚ) ≤ MAX_DIMENSION
        norm_num [MAX_DIMENSION]
      · rw [hcanvas, hdims]
        show MAX_DIMENSION < ((1024 : ℕ) : ℚ) + 1
        norm_num [MAX_DIMENSION]
      · rw [hcanvas, hdims]
        exact hfb.1
      · rw [hcanvas, hdims]
        exact hfb.2
    · -- portrait or square: height is capped
      have hh : 1024 < h := by omega
      have hdims : resizeDimensions w h =
          ((w : ℚ) * (MAX_DIMENSION / (h : ℚ)), MAX_DIMENSION) := by
        simp [resizeDimensions, hwh, hh]
      have hhpos : (0 : ℚ) < (h : ℚ) := by
        have h1 : 0 < h := by omega
        exact_mod_cast h1
      have hwlh : (w : ℚ) ≤ (h : ℚ) := by
        have h1 : w ≤ h := by omega
        exact_mod_cast h1
      have hq0 : 0 ≤ (w : ℚ) * (MAX_DIMENSION / (h : ℚ)) := by
        rw [MAX_DIMENSION]; positivity
      have hqle : (w : ℚ) * (MAX_DIMENSION / (h : ℚ)) ≤ 1024 := by
        rw [MAX_DIMENSION, ← mul_div_assoc, div_le_iff₀ hhpos]
        nlinarith
      have hcanvas : canvasDims w h =
          ((Int.floor ((w : ℚ) * (MAX_DIMENSION / (h : ℚ)))).toNat, 1024) := by
        rw [canvasDims, hdims]
        simp [floor_MAX]
      have hfb := floor_toNat_bounds _ hq0
      have hfloorle : Int.floor ((w : ℚ) * (MAX_DIMENSION / (h : ℚ))) ≤ 1024 := by
        have h1 : Int.floor ((w : ℚ) * (MAX_DIMENSION / (h : ℚ))) ≤
            Int.floor (1024 : ℚ) := Int.floor_le_floor hqle
        have h2 : Int.floor (1024 : ℚ) = 1024 := by
          have := floor_MAX
          rw [MAX_DIMENSION] at this
          exact this
        omega
      have h0 : 0 ≤ Int.floor ((w : ℚ) * (MAX_DIMENSION / (h : ℚ))) :=
        Int.floor_nonneg.mpr hq0
      have htn : (Int.floor ((w : ℚ) * (MAX_DIMENSION / (h : ℚ)))).toNat ≤ 1024 := by
        omega
      have hhne : (h : ℚ) ≠ 0 := ne_of_gt hhpos
      refine ⟨?_, ?_, ?_, ?_, ?_, ?_⟩
      · rw [hcanvas]
        exact Nat.max_eq_right htn
      · rw [hdims]
        show (w : ℚ) * (MAX_DIMENSION / (h : ℚ)) * (h : ℚ) = MAX_DIMENSION * (w : ℚ)
        field_simp
        ring
      · rw [hcanvas, hdims]
        exact hfb.1
      · rw [hcanvas, hdims]
        exact hfb.2
      · rw [hcanvas, hdims]
        show ((1024 : ℕ) : ℚ) ≤ MAX_DIMENSION
        norm_num [MAX_DIMENSION]
      · rw [hcanvas, hdims]
        show MAX_DIMENSION < ((1024 : ℕ) : ℚ) + 1
        norm_num [MAX_DIMENSION]

/-- C7 witness: an 800×600 input is kept as-is; a 2048×1536 input is
capped with the width landing on 1024 and the exact aspect ratio
preserved. -/
theorem normalizer_dimension_bounds_witness :
    (max 800 600 ≤ 1024 ∧ canvasDims 800 600 = (800, 600)) ∧
    (1024 < max 2048 1536 ∧
      max (canvasDims 2048 1536).1 (canvasDims 2048 1536).2 = 1024 ∧
      (resizeDimensions 2048 1536).1 * ((1536 : ℕ) : ℚ) =
        (resizeDimensions 2048 1536).2 * ((2048 : ℕ) : ℚ)) :=
  ⟨⟨by decide, (normalizer_dimension_bounds 800 600).1 (by decide)⟩,
   ⟨by decide, ((normalizer_dimension_bounds 2048 1536).2 (by decide)).1,
    ((normalizer_dimension_bounds 2048 1536).2 (by decide)).2.1⟩⟩

/-- C8 counterexample: the plain base64 variant of
`fileToGenerativePart` (`geminiService.ts` lines 182-196) resolves
`mimeType: file.type`, so a PNG input keeps `image/png` instead of the
fixed lossy format. -/
theorem plain_variant_keeps_original_mediaType :
    (fileToGenerativePart_plain "image/png").mimeType = "image/png" ∧
    ("image/png" : String) ≠ "image/jpeg" :=
  ⟨rfl, by decide⟩

/-- C8 (amended): the resize-and-re-encode normalizer variant always
outputs the fixed lossy format `image/jpeg` regardless of the input
file's type, while the plain base64 variant passes the input file's
own type through. -/
theorem resize_variant_mediaType_always_jpeg :
    ∀ fileType w h,
      (fileToGenerativePart_resize fileType w h).mimeType = "image/jpeg" ∧
      (fileToGenerativePart_plain fileType).mimeType = fileType :=
  fun _ _ _ => ⟨rfl, rfl⟩
